import Mathlib

/-!
Verification development for the Sila pairing-session service
(`src/server.js`, with the ESM variant in `src/unnamed/part_000`).

The shallow embedding below models the `POST /pair` request handler: input
validation and sanitization, the pairing-code retry loop, the
`connection.update` listener (open / close branches), the MEGA-link
reference-code derivation, the append-only session registry (`db.json`),
and the write-once response discipline implemented with the `responded`
boolean flag.

Modelling conventions:
- Each `res.json` / `res.status(n).json(...)` call site is an `HttpResponse`
  with the literal status of the source (`res.json` alone is Express's
  default status 200).
- The guarded write pattern `if (!responded) { responded = true; res... }`
  is the function `send` on a session state whose `slot` field
  (`Option HttpResponse`) is the `responded` flag together with the
  committed outcome.
- External collaborators (the Baileys transport, the MEGA uploader, the
  wall clock) are oracles: the result of each `requestPairingCode` call,
  each `connection.update` event, and each upload are inputs of the model.
- JavaScript code between two `await` points runs atomically; the model
  therefore treats each handler body (and each loop iteration) as an atomic
  step, and lets connection events interleave between loop iterations and
  after the synchronous flow.
- Infrastructure calls that the claims treat as non-failing
  (`fs.ensureDir`, `useMultiFileAuthState`, `readDB`/`writeDB`, `pino`
  logging) are modelled as side-effect trace entries or omitted.
-/

namespace SilaPair

/-- The JSON bodies this service can send for one `POST /pair` request,
one constructor per `res.json` call site of `src/server.js`. -/
inductive Outcome
  | numberRequired
  | invalidNumber
  | pairingCodeSent (code : String)
  | failedToGeneratePairingCode
  | alreadyRegistered
  | paired (sid : String) (megaLink : String)
  | waiting
  | credsNotFound
  | uploadFailed (details : String)
  | loggedOut
deriving DecidableEq

/-- An HTTP response as committed by one `res...json(...)` call:
the status code actually sent and the body. -/
structure HttpResponse where
  status : Nat
  body : Outcome
deriving DecidableEq

/-- One record of the `db.json` session registry:
`{ sid, number, megaLink, createdAt }` as pushed by the open branch. -/
structure Record where
  sid : String
  number : String
  megaLink : String
  createdAt : Nat
deriving DecidableEq

/-- Observable side effects of the handler, in program order. -/
inductive Action
  | mkSessionDir (dir : String)
  | openSocket
  | delayMs (n : Nat)
  | codeAttempt
  | credCheck
  | upload
  | dbAppend (r : Record)
  | httpSend (r : HttpResponse)
  | notify
deriving DecidableEq

/-- `sanitized = ('' + number).replace(/\D/g, '')` of `src/server.js`:
delete every non-digit character. -/
def sanitize (number : String) : String :=
  String.mk (number.data.filter Char.isDigit)

/-- The last path component of
`path.join(SESSION_BASE_PATH, "sila_" + sanitized)`. -/
def sessionFolder (sanitized : String) : String :=
  "sila_" ++ sanitized

/-! ### Base64 (Node's `Buffer.from(megaLink).toString('base64')`) -/

/-- UTF-8 encoding of one character, as byte values. -/
def utf8EncodeCharNat (c : Char) : List Nat :=
  let n := c.toNat
  if n < 128 then [n]
  else if n < 2048 then [192 + n / 64, 128 + n % 64]
  else if n < 65536 then [224 + n / 4096, 128 + n / 64 % 64, 128 + n % 64]
  else [240 + n / 262144, 128 + n / 4096 % 64, 128 + n / 64 % 64, 128 + n % 64]

/-- UTF-8 bytes of a string (what `Buffer.from` produces). -/
def utf8Bytes (s : String) : List Nat :=
  (s.data.map utf8EncodeCharNat).flatten

/-- The base64 alphabet. -/
def base64Table : List Char :=
  "ABCDEFGHIJKLMNOPQRSTUVWXYZabcdefghijklmnopqrstuvwxyz0123456789+/".data

/-- The base64 digit for a 6-bit value. -/
def b64Char (n : Nat) : Char := base64Table.getD n 'A'

/-- Standard base64 of a byte list, with `=` padding. -/
def base64Chunks : List Nat → List Char
  | [] => []
  | [a] => [b64Char (a / 4), b64Char (a % 4 * 16), '=', '=']
  | [a, b] => [b64Char (a / 4), b64Char (a % 4 * 16 + b / 16), b64Char (b % 16 * 4), '=']
  | a :: b :: c :: rest =>
      b64Char (a / 4) :: b64Char (a % 4 * 16 + b / 16) ::
      b64Char (b % 16 * 4 + c / 64) :: b64Char (c % 64) :: base64Chunks rest

/-- `Buffer.from(s).toString('base64')`. -/
def base64Encode (s : String) : String :=
  String.mk (base64Chunks (utf8Bytes s))

/-! ### Reference-code derivation

Two variants exist in the repository.

`src/unnamed/part_000` (`extractMegaFileCode`) uses the regex
`/mega\.nz\/file\/([^#?\/]+)/`: literal text `mega.nz/file/` followed by a
non-empty capture of characters other than `#`, `?`, `/`.

`src/server.js` inlines `megaLink.match(/mega\\.nz\\/file\\/(.*?)(?:#|$)/)`.
In a JavaScript regex literal `\\` matches one literal backslash, so this
pattern requires the text `mega` + `\` + any character + `nz` + `\/` +
`file` + `\/` — it can only match links that contain backslashes. -/

/-- Match the literal prefix `mega.nz/file/` at the head of a character
list, returning the remainder (the `part_000` regex's prefix). -/
def megaPrefixAt : List Char → Option (List Char)
  | 'm' :: 'e' :: 'g' :: 'a' :: '.' :: 'n' :: 'z' :: '/' :: 'f' :: 'i' :: 'l' :: 'e' :: '/' :: rest => some rest
  | _ => none

/-- Characters allowed in the `part_000` capture group `[^#?\/]`. -/
def isCodeChar (c : Char) : Bool :=
  !(c = '#' || c = '?' || c = '/')

/-- Leftmost match of `/mega\.nz\/file\/([^#?\/]+)/` over a character
list: find the first position where the prefix matches and at least one
capture character follows, and return the (greedy, non-empty) capture. -/
def megaFind : List Char → Option (List Char)
  | [] => none
  | c :: cs =>
    match megaPrefixAt (c :: cs) with
    | some rest =>
      let cap := rest.takeWhile isCodeChar
      if cap.isEmpty then megaFind cs else some cap
    | none => megaFind cs

/-- `extractMegaFileCode` of `src/unnamed/part_000`: `null` for a falsy
link; the regex capture when the link matches; otherwise the first 12
base64 characters of the whole link. -/
def extractMegaFileCode (megaLink : String) : Option String :=
  if megaLink = "" then none
  else
    match megaFind megaLink.data with
    | some cap => some (String.mk cap)
    | none => some ((base64Encode megaLink).take 12)

/-- Match the `src/server.js` regex prefix `mega\\.nz\\/file\\/`
(mis-escaped: requires literal backslashes) at the head of a character
list. -/
def serverJsPrefixAt : List Char → Option (List Char)
  | 'm' :: 'e' :: 'g' :: 'a' :: '\\' :: _ :: 'n' :: 'z' :: '\\' :: '/' :: 'f' :: 'i' :: 'l' :: 'e' :: '\\' :: '/' :: rest =>
      some rest
  | _ => none

/-- Leftmost match position for the `src/server.js` regex. -/
def serverJsFind : List Char → Option (List Char)
  | [] => none
  | c :: cs =>
    match serverJsPrefixAt (c :: cs) with
    | some rest => some rest
    | none => serverJsFind cs

/-- The inline derivation of `src/server.js`:
`m ? m[1] : Buffer.from(megaLink).toString('base64').slice(0, 12)`
where the lazy capture `(.*?)(?:#|$)` takes everything up to the first
`#` (or the end of the string). -/
def serverJsCode (megaLink : String) : String :=
  match serverJsFind megaLink.data with
  | some rest => String.mk (rest.takeWhile (fun c => !(c = '#')))
  | none => (base64Encode megaLink).take 12

/-- `'Sila~' + code` where a JavaScript template literal renders `null`
as the text `null` (the `part_000` variant's `sid`). -/
def sidOfCode : Option String → String
  | some c => "Sila~" ++ c
  | none => "Sila~null"

/-! ### Session state and the write-once response slot -/

/-- Decidable equality for oracle results. -/
instance exceptDecEq {ε α : Type} [DecidableEq ε] [DecidableEq α] :
    DecidableEq (Except ε α) := fun a b =>
  match a, b with
  | Except.ok x, Except.ok y =>
      if h : x = y then isTrue (by rw [h]) else isFalse (by intro hc; cases hc; exact h rfl)
  | Except.error x, Except.error y =>
      if h : x = y then isTrue (by rw [h]) else isFalse (by intro hc; cases hc; exact h rfl)
  | Except.ok _, Except.error _ => isFalse (by intro hc; cases hc)
  | Except.error _, Except.ok _ => isFalse (by intro hc; cases hc)

/-- Mutable state of one `POST /pair` request: the `responded` flag
together with the committed response (`slot`), the `db.json` session list,
the responses actually handed to Express (`sends`), and the side-effect
trace (`actions`). -/
structure SessState where
  slot : Option HttpResponse
  db : List Record
  sends : List HttpResponse
  actions : List Action
deriving DecidableEq

/-- A fresh request state over an existing registry. -/
def freshState (db0 : List Record) : SessState :=
  ⟨none, db0, [], []⟩

/-- Record a side effect. -/
def addAction (s : SessState) (a : Action) : SessState :=
  { s with actions := s.actions ++ [a] }

/-- The guarded response write
`if (!responded) { responded = true; res...json(r) }`:
commit `r` when the slot is still open, otherwise drop it silently. -/
def send (s : SessState) (r : HttpResponse) : SessState :=
  match s.slot with
  | none =>
      { slot := some r, db := s.db, sends := s.sends ++ [r],
        actions := s.actions ++ [Action.httpSend r] }
  | some _ => s

/-- `DisconnectReason.loggedOut` of the external Baileys library; only its
identity as a status code matters to the model. -/
def loggedOutCode : Nat := 401

/-- The `connection === 'open'` branch of the `connection.update`
listener in `src/server.js`: check `creds.json`; if absent, guarded 500
`creds_not_found`; otherwise upload to MEGA; on failure, guarded 500
`upload_failed`; on success, derive `sid`, push the record onto
`db.sessions`, write the db, send the guarded 200 `paired` reply, and
make the best-effort owner notification. `credsPresent` is the
`fs.existsSync(credsFile)` oracle and `uploadResult` the
`uploadCredsToMega` oracle. -/
def openHandler (credsPresent : Bool) (uploadResult : Except String String)
    (sanitized : String) (now : Nat) (s : SessState) : SessState :=
  if credsPresent then
    let s1 := addAction (addAction s Action.credCheck) Action.upload
    match uploadResult with
    | Except.error d => send s1 ⟨500, Outcome.uploadFailed d⟩
    | Except.ok megaLink =>
        let code := serverJsCode megaLink
        let sid := "Sila~" ++ code
        let record : Record := ⟨sid, sanitized, megaLink, now⟩
        let s2 := { s1 with db := s1.db ++ [record],
                            actions := s1.actions ++ [Action.dbAppend record] }
        addAction (send s2 ⟨200, Outcome.paired sid megaLink⟩) Action.notify
  else
    send (addAction s Action.credCheck) ⟨500, Outcome.credsNotFound⟩

/-- The `connection === 'close'` branch: a guarded 500 `logged_out` when
`lastDisconnect.error.output.statusCode === DisconnectReason.loggedOut`,
nothing otherwise. -/
def closeHandler (statusCode : Option Nat) (s : SessState) : SessState :=
  if statusCode = some loggedOutCode then send s ⟨500, Outcome.loggedOut⟩ else s

/-- One `connection.update` event as delivered by the transport. -/
inductive ConnEvent
  | opened (credsPresent : Bool) (uploadResult : Except String String) (now : Nat)
  | closed (statusCode : Option Nat)
deriving DecidableEq

/-- Dispatch of the `connection.update` listener. -/
def connEventStep (sanitized : String) (e : ConnEvent) (s : SessState) : SessState :=
  match e with
  | ConnEvent.opened cp ur now => openHandler cp ur sanitized now s
  | ConnEvent.closed sc => closeHandler sc s

/-- One scheduling step observed by the pairing-code `while` loop: either
the outcome of one `sock.requestPairingCode` call (`Except.error` when it
throws), or a connection event firing during one of the loop's `await`
suspensions. -/
inductive LoopStep
  | attempt (r : Except Unit String)
  | conn (e : ConnEvent)
deriving DecidableEq

/-- `pairingCode` is falsy (`null` or the empty string). -/
def falsyStr : Option String → Bool
  | none => true
  | some s => s = ""

/-- The pairing-code retry loop of `src/server.js`:
`while (tries > 0 && !pairingCode)` with `await delay(1000)` then
`requestPairingCode`; a truthy code triggers the guarded
`pairing_code_sent` reply and a `return`; a throw decrements `tries` and,
when `tries` reaches 0, triggers the guarded 500
`failed_to_generate_pairing_code` reply and a `return`.
Returns the state, whether the loop exited its `while` condition
(as opposed to the step oracle running out mid-loop), and whether the
handler `return`ed from inside the loop. -/
def pairLoop (san : String) :
    List LoopStep → Nat → Option String → SessState → SessState × Bool × Bool
  | [], tries, pc, s =>
      if 0 < tries ∧ falsyStr pc = true then (s, false, false) else (s, true, false)
  | step :: rest, tries, pc, s =>
      if 0 < tries ∧ falsyStr pc = true then
        match step with
        | LoopStep.conn e => pairLoop san rest tries pc (connEventStep san e s)
        | LoopStep.attempt r =>
          let s0 := addAction (addAction s (Action.delayMs 1000)) Action.codeAttempt
          match r with
          | Except.ok code =>
              if code = "" then pairLoop san rest tries (some code) s0
              else
                match s0.slot with
                | none => (send s0 ⟨200, Outcome.pairingCodeSent code⟩, true, true)
                | some _ => pairLoop san rest tries (some code) s0
          | Except.error _ =>
              if tries - 1 = 0 then
                match s0.slot with
                | none =>
                    (send s0 ⟨500, Outcome.failedToGeneratePairingCode⟩, true, true)
                | some _ => pairLoop san rest (tries - 1) pc s0
              else pairLoop san rest (tries - 1) pc s0
      else (s, true, false)

/-- Result of the synchronous part of the `POST /pair` handler. -/
structure StartResult where
  state : SessState
  validated : Bool
  timerArmed : Bool
  sessionDir : Option String
  flowDone : Bool
deriving DecidableEq

/-- The synchronous flow of `app.post('/pair')` in `src/server.js`:
reject a falsy `number` with 400 `number required`; sanitize; reject fewer
than 8 digits with 400 `invalid number`; otherwise create the session
directory, open the socket, and either send the guarded
`already_registered` reply (registered subject) or run the pairing-code
loop (unregistered subject). The 30-second safety `setTimeout` is armed
only if control reaches the end of the handler body, i.e. only when the
loop exited its condition without `return`ing. -/
def startPairing (number : String) (registered : Bool) (steps : List LoopStep)
    (db0 : List Record) : StartResult :=
  if number = "" then
    ⟨⟨none, db0, [⟨400, Outcome.numberRequired⟩],
      [Action.httpSend ⟨400, Outcome.numberRequired⟩]⟩, false, false, none, true⟩
  else
    let san := sanitize number
    if san.length < 8 then
      ⟨⟨none, db0, [⟨400, Outcome.invalidNumber⟩],
        [Action.httpSend ⟨400, Outcome.invalidNumber⟩]⟩, false, false, none, true⟩
    else
      let dir := sessionFolder san
      let s1 : SessState := ⟨none, db0, [], [Action.mkSessionDir dir, Action.openSocket]⟩
      if registered then
        ⟨send s1 ⟨200, Outcome.alreadyRegistered⟩, true, true, some dir, true⟩
      else
        let r := pairLoop san steps 3 none s1
        ⟨r.1, true, r.2.1 && !r.2.2, some dir, r.2.1 || r.2.2⟩

/-- An event occurring after the synchronous flow: a connection event, or
the safety timer firing. -/
inductive Event
  | conn (e : ConnEvent)
  | timer
deriving DecidableEq

/-- Apply one post-flow event. The timer callback is
`if (!responded) { responded = true; res.status(202).json(waiting) }`,
and only ever runs if the `setTimeout` was armed. -/
def stepEvent (sanitized : String) (armed : Bool) (s : SessState) (e : Event) :
    SessState :=
  match e with
  | Event.conn ce => connEventStep sanitized ce s
  | Event.timer => if armed then send s ⟨202, Outcome.waiting⟩ else s

/-- A whole request: the synchronous flow, then (when validation passed,
so a socket and timer exist) any sequence of connection events and timer
firings. -/
def runSession (number : String) (registered : Bool) (steps : List LoopStep)
    (db0 : List Record) (events : List Event) : StartResult × SessState :=
  let R := startPairing number registered steps db0
  if R.validated then
    (R, events.foldl (stepEvent (sanitize number) R.timerArmed) R.state)
  else (R, R.state)

/-! ### Helper definitions for the theorems -/

/-- Modelled from the spec (amended interface contract): the status code
paired with each outcome by the code's `res...` call sites — used to state
the corrected status-code claim. -/
def amendedStatusOf : Outcome → Nat
  | Outcome.numberRequired => 400
  | Outcome.invalidNumber => 400
  | Outcome.pairingCodeSent _ => 200
  | Outcome.failedToGeneratePairingCode => 500
  | Outcome.alreadyRegistered => 200
  | Outcome.paired _ _ => 200
  | Outcome.waiting => 202
  | Outcome.credsNotFound => 500
  | Outcome.uploadFailed _ => 500
  | Outcome.loggedOut => 500

/-- Number of occurrences of a side effect in a trace. -/
def countAct (a : Action) : List Action → Nat
  | [] => 0
  | x :: xs => (if x = a then 1 else 0) + countAct a xs

lemma countAct_append (a : Action) (l1 l2 : List Action) :
    countAct a (l1 ++ l2) = countAct a l1 + countAct a l2 := by
  induction l1 with
  | nil => simp [countAct]
  | cons x xs ih => simp [countAct, ih]; omega

/-! ### Basic lemmas about the guarded write -/

lemma send_of_none {s : SessState} (r : HttpResponse) (h : s.slot = none) :
    send s r = { slot := some r, db := s.db, sends := s.sends ++ [r],
                 actions := s.actions ++ [Action.httpSend r] } := by
  unfold send; rw [h]

lemma send_of_some {s : SessState} (r r0 : HttpResponse) (h : s.slot = some r0) :
    send s r = s := by
  unfold send; rw [h]

lemma addAction_slot (s : SessState) (a : Action) : (addAction s a).slot = s.slot := rfl

lemma send_slot_keeps_some {s : SessState} {r r0 : HttpResponse} (h : s.slot = some r0) :
    (send s r).slot = some r0 := by
  rw [send_of_some r r0 h]; exact h

lemma openHandler_slot_keeps_some {cp : Bool} {ur : Except String String}
    {san : String} {now : Nat} {s : SessState} {r0 : HttpResponse}
    (h : s.slot = some r0) : (openHandler cp ur san now s).slot = some r0 := by
  unfold openHandler
  cases cp with
  | false =>
    simp only [Bool.false_eq_true, if_neg, ite_false]
    exact send_slot_keeps_some (s := addAction s Action.credCheck) h
  | true =>
    simp only [ite_true]
    cases ur with
    | error d =>
      exact send_slot_keeps_some
        (s := addAction (addAction s Action.credCheck) Action.upload) h
    | ok link =>
      exact send_slot_keeps_some h

lemma closeHandler_slot_keeps_some {sc : Option Nat} {s : SessState}
    {r0 : HttpResponse} (h : s.slot = some r0) :
    (closeHandler sc s).slot = some r0 := by
  unfold closeHandler
  by_cases hc : sc = some loggedOutCode
  · rw [if_pos hc]; exact send_slot_keeps_some h
  · rw [if_neg hc]; exact h

lemma connEventStep_slot_keeps_some {san : String} {e : ConnEvent} {s : SessState}
    {r0 : HttpResponse} (h : s.slot = some r0) :
    (connEventStep san e s).slot = some r0 := by
  cases e with
  | opened cp ur now => exact openHandler_slot_keeps_some h
  | closed sc => exact closeHandler_slot_keeps_some h

lemma pairLoop_slot_keeps_some (san : String) :
    ∀ (steps : List LoopStep) (tries : Nat) (pc : Option String) (s : SessState)
      (r0 : HttpResponse), s.slot = some r0 →
      ((pairLoop san steps tries pc s).1).slot = some r0 := by
  intro steps
  induction steps with
  | nil =>
    intro tries pc s r0 h
    unfold pairLoop
    split
    · exact h
    · exact h
  | cons step rest ih =>
    intro tries pc s r0 h
    unfold pairLoop
    split
    · cases step with
      | conn e => exact ih _ _ _ _ (connEventStep_slot_keeps_some h)
      | attempt r =>
        cases r with
        | ok code =>
          have h0 : (addAction (addAction s (Action.delayMs 1000)) Action.codeAttempt).slot
              = some r0 := h
          by_cases hc : code = ""
          · dsimp only
            rw [if_pos hc]
            exact ih _ _ _ _ h0
          · dsimp only
            rw [if_neg hc, h0]
            exact ih _ _ _ _ h0
        | error e =>
          have h0 : (addAction (addAction s (Action.delayMs 1000)) Action.codeAttempt).slot
              = some r0 := h
          by_cases ht : tries - 1 = 0
          · dsimp only
            rw [if_pos ht, h0]
            exact ih _ _ _ _ h0
          · dsimp only
            rw [if_neg ht]
            exact ih _ _ _ _ h0
    · exact h

/-! ### The response-slot invariant

The committed slot and the list of responses actually handed to Express
agree (empty slot / no response sent, or filled slot / exactly that one
response sent), and every sent response carries the status code of its
call site. -/

/-- Invariant tying the `responded` flag to the responses actually sent. -/
def Inv (s : SessState) : Prop :=
  ((s.slot = none ∧ s.sends = []) ∨ (∃ r, s.slot = some r ∧ s.sends = [r])) ∧
  (∀ r ∈ s.sends, r.status = amendedStatusOf r.body)

lemma inv_addAction {s : SessState} {a : Action} (h : Inv s) : Inv (addAction s a) := h

lemma inv_db_update {s : SessState} {d : List Record} {acts : List Action}
    (h : Inv s) : Inv { s with db := d, actions := acts } := h

lemma inv_send {s : SessState} {r : HttpResponse} (hI : Inv s)
    (hr : r.status = amendedStatusOf r.body) : Inv (send s r) := by
  obtain ⟨hg, ho⟩ := hI
  cases hs : s.slot with
  | none =>
    have hsends : s.sends = [] := by
      rcases hg with ⟨_, h2⟩ | ⟨r0, h0, _⟩
      · exact h2
      · rw [hs] at h0; cases h0
    rw [send_of_none r hs]
    constructor
    · right
      exact ⟨r, rfl, by rw [hsends]; rfl⟩
    · intro x hx
      simp only [hsends, List.nil_append, List.mem_singleton] at hx
      rw [hx]; exact hr
  | some r0 =>
    rw [send_of_some r r0 hs]
    exact ⟨hg, ho⟩

lemma inv_openHandler {cp : Bool} {ur : Except String String} {san : String}
    {now : Nat} {s : SessState} (h : Inv s) : Inv (openHandler cp ur san now s) := by
  unfold openHandler
  cases cp with
  | false =>
    simp only [Bool.false_eq_true, if_false]
    exact inv_send (inv_addAction h) rfl
  | true =>
    simp only [if_true]
    cases ur with
    | error d => exact inv_send (inv_addAction (inv_addAction h)) rfl
    | ok link =>
      have h1 : Inv (addAction (addAction s Action.credCheck) Action.upload) :=
        inv_addAction (inv_addAction h)
      exact inv_addAction (inv_send h1 rfl)

lemma inv_closeHandler {sc : Option Nat} {s : SessState} (h : Inv s) :
    Inv (closeHandler sc s) := by
  unfold closeHandler
  by_cases hc : sc = some loggedOutCode
  · rw [if_pos hc]; exact inv_send h rfl
  · rw [if_neg hc]; exact h

lemma inv_connEventStep {san : String} {e : ConnEvent} {s : SessState} (h : Inv s) :
    Inv (connEventStep san e s) := by
  cases e with
  | opened cp ur now => exact inv_openHandler h
  | closed sc => exact inv_closeHandler h

lemma inv_pairLoop (san : String) :
    ∀ (steps : List LoopStep) (tries : Nat) (pc : Option String) (s : SessState),
      Inv s → Inv (pairLoop san steps tries pc s).1 := by
  intro steps
  induction steps with
  | nil =>
    intro tries pc s h
    unfold pairLoop
    split
    · exact h
    · exact h
  | cons step rest ih =>
    intro tries pc s h
    unfold pairLoop
    split
    · cases step with
      | conn e => exact ih _ _ _ (inv_connEventStep h)
      | attempt r =>
        have h0 : Inv (addAction (addAction s (Action.delayMs 1000)) Action.codeAttempt) :=
          inv_addAction (inv_addAction h)
        cases r with
        | ok code =>
          by_cases hc : code = ""
          · dsimp only
            rw [if_pos hc]
            exact ih _ _ _ h0
          · dsimp only
            rw [if_neg hc]
            cases hs : (addAction (addAction s (Action.delayMs 1000)) Action.codeAttempt).slot
            · exact inv_send h0 rfl
            · exact ih _ _ _ h0
        | error e =>
          by_cases ht : tries - 1 = 0
          · dsimp only
            rw [if_pos ht]
            cases hs : (addAction (addAction s (Action.delayMs 1000)) Action.codeAttempt).slot
            · exact inv_send h0 rfl
            · exact ih _ _ _ h0
          · dsimp only
            rw [if_neg ht]
            exact ih _ _ _ h0
    · exact h

lemma inv_stepEvent {san : String} {armed : Bool} {s : SessState} {e : Event}
    (h : Inv s) : Inv (stepEvent san armed s e) := by
  cases e with
  | conn ce => exact inv_connEventStep h
  | timer =>
    unfold stepEvent
    by_cases ha : armed = true
    · rw [ha, if_pos rfl]; exact inv_send h rfl
    · have : armed = false := by revert ha; cases armed <;> simp
      rw [this]
      simp only [Bool.false_eq_true, if_false]
      exact h

lemma inv_foldl {san : String} {armed : Bool} :
    ∀ (events : List Event) (s : SessState), Inv s →
      Inv (events.foldl (stepEvent san armed) s) := by
  intro events
  induction events with
  | nil => intro s h; exact h
  | cons e rest ih =>
    intro s h
    rw [List.foldl_cons]
    exact ih _ (inv_stepEvent h)

lemma inv_fresh (db0 : List Record) (acts : List Action) :
    Inv (⟨none, db0, [], acts⟩ : SessState) := by
  constructor
  · left; exact ⟨rfl, rfl⟩
  · intro r hr; exact absurd hr (List.not_mem_nil r)

lemma startPairing_state_cases (number : String) (registered : Bool)
    (steps : List LoopStep) (db0 : List Record) :
    Inv (startPairing number registered steps db0).state ∨
    ((startPairing number registered steps db0).validated = false ∧
     ∃ r, r.status = amendedStatusOf r.body ∧
       (startPairing number registered steps db0).state =
         ⟨none, db0, [r], [Action.httpSend r]⟩) := by
  unfold startPairing
  by_cases hn : number = ""
  · rw [if_pos hn]
    right
    exact ⟨rfl, ⟨400, Outcome.numberRequired⟩, rfl, rfl⟩
  · rw [if_neg hn]
    dsimp only
    by_cases hl : (sanitize number).length < 8
    · rw [if_pos hl]
      right
      exact ⟨rfl, ⟨400, Outcome.invalidNumber⟩, rfl, rfl⟩
    · rw [if_neg hl]
      cases registered with
      | true =>
        simp only [if_true]
        left
        exact inv_send (inv_fresh db0 _) rfl
      | false =>
        simp only [Bool.false_eq_true, if_false]
        left
        exact inv_pairLoop _ _ _ _ _ (inv_fresh db0 _)

lemma runSession_sends_facts (number : String) (registered : Bool)
    (steps : List LoopStep) (db0 : List Record) (events : List Event) :
    ((runSession number registered steps db0 events).2.sends).length ≤ 1 ∧
    (∀ r ∈ (runSession number registered steps db0 events).2.sends,
      r.status = amendedStatusOf r.body) := by
  rcases startPairing_state_cases number registered steps db0 with hI | ⟨hv, r, hr, hst⟩
  · have h2 : Inv (runSession number registered steps db0 events).2 := by
      unfold runSession
      dsimp only
      split
      · exact inv_foldl events _ hI
      · exact hI
    obtain ⟨hg, ho⟩ := h2
    constructor
    · rcases hg with ⟨_, h2s⟩ | ⟨r0, _, h2s⟩ <;> simp [h2s]
    · exact ho
  · have h2 : (runSession number registered steps db0 events).2 =
        ⟨none, db0, [r], [Action.httpSend r]⟩ := by
      unfold runSession
      dsimp only
      rw [hv]
      simp only [Bool.false_eq_true, if_false]
      exact hst
    rw [h2]
    constructor
    · simp
    · intro x hx
      simp only [List.mem_singleton] at hx
      rw [hx]; exact hr

/-- When the pairing-code loop exits its `while` condition without
`return`ing (the only way `src/server.js` reaches the `setTimeout`
through the unregistered branch), a response has already been committed:
the loop invariant is that the `while` condition can only become false
after some guarded write filled the slot. -/
lemma pairLoop_exit_filled (san : String) :
    ∀ (steps : List LoopStep) (tries : Nat) (pc : Option String) (s : SessState)
      (s' : SessState) (fin ret : Bool),
      pairLoop san steps tries pc s = (s', fin, ret) →
      ((0 < tries ∧ falsyStr pc = true) ∨ s.slot ≠ none) →
      fin = true → ret = false → s'.slot ≠ none := by
  intro steps
  induction steps with
  | nil =>
    intro tries pc s s' fin ret heq hd hfin hret
    unfold pairLoop at heq
    by_cases hcond : 0 < tries ∧ falsyStr pc = true
    · rw [if_pos hcond] at heq
      cases heq
      exact absurd hfin (by simp)
    · rw [if_neg hcond] at heq
      cases heq
      rcases hd with hc | hs
      · exact absurd hc hcond
      · exact hs
  | cons step rest ih =>
    intro tries pc s s' fin ret heq hd hfin hret
    unfold pairLoop at heq
    by_cases hcond : 0 < tries ∧ falsyStr pc = true
    · rw [if_pos hcond] at heq
      cases step with
      | conn e =>
        dsimp only at heq
        exact ih _ _ _ _ _ _ heq (Or.inl hcond) hfin hret
      | attempt r =>
        cases r with
        | ok code =>
          dsimp only at heq
          by_cases hcode : code = ""
          · rw [if_pos hcode] at heq
            refine ih _ _ _ _ _ _ heq (Or.inl ⟨hcond.1, ?_⟩) hfin hret
            simp [falsyStr, hcode]
          · rw [if_neg hcode] at heq
            rcases hslot :
                (addAction (addAction s (Action.delayMs 1000)) Action.codeAttempt).slot
                with _ | r0
            · rw [hslot] at heq
              dsimp only at heq
              cases heq
              exact absurd hret (by simp)
            · rw [hslot] at heq
              dsimp only at heq
              refine ih _ _ _ _ _ _ heq (Or.inr ?_) hfin hret
              rw [hslot]; simp
        | error e =>
          dsimp only at heq
          by_cases ht : tries - 1 = 0
          · rw [if_pos ht] at heq
            rcases hslot :
                (addAction (addAction s (Action.delayMs 1000)) Action.codeAttempt).slot
                with _ | r0
            · rw [hslot] at heq
              dsimp only at heq
              cases heq
              exact absurd hret (by simp)
            · rw [hslot] at heq
              dsimp only at heq
              refine ih _ _ _ _ _ _ heq (Or.inr ?_) hfin hret
              rw [hslot]; simp
          · rw [if_neg ht] at heq
            refine ih _ _ _ _ _ _ heq (Or.inl ⟨?_, hcond.2⟩) hfin hret
            omega
    · rw [if_neg hcond] at heq
      cases heq
      rcases hd with hc | hs
      · exact absurd hc hcond
      · exact hs

lemma countAct_addAction (a b : Action) (s : SessState) :
    countAct a (addAction s b).actions =
      countAct a s.actions + (if b = a then 1 else 0) := by
  unfold addAction
  simp [countAct_append, countAct]

lemma countAct_send (a : Action) (hnot : ∀ r, Action.httpSend r ≠ a)
    (s : SessState) (r : HttpResponse) :
    countAct a (send s r).actions = countAct a s.actions := by
  cases hs : s.slot with
  | none =>
    rw [send_of_none r hs]
    simp [countAct_append, countAct, hnot r]
  | some r0 =>
    rw [send_of_some r r0 hs]

/-- The attempt counter of one loop iteration's two `addAction`s. -/
lemma countAct_iter (s : SessState) :
    countAct Action.codeAttempt
        (addAction (addAction s (Action.delayMs 1000)) Action.codeAttempt).actions
      = countAct Action.codeAttempt s.actions + 1 ∧
    countAct (Action.delayMs 1000)
        (addAction (addAction s (Action.delayMs 1000)) Action.codeAttempt).actions
      = countAct (Action.delayMs 1000) s.actions + 1 := by
  constructor <;> simp [countAct_addAction]

/-- Each `requestPairingCode` failure consumes one unit of the retry
budget, and a non-empty code ends the loop, so under a transport whose
attempts either throw or yield a non-empty code the loop makes at most
`tries` further attempts (none once `pairingCode` is already truthy). -/
lemma pairLoop_attempts_le (san : String) :
    ∀ (oracle : List (Except Unit String)) (tries : Nat) (pc : Option String)
      (s : SessState),
      (∀ c, Except.ok c ∈ oracle → c ≠ "") →
      countAct Action.codeAttempt
          (pairLoop san (oracle.map LoopStep.attempt) tries pc s).1.actions ≤
        countAct Action.codeAttempt s.actions +
          (if falsyStr pc = true then tries else 0) := by
  intro oracle
  induction oracle with
  | nil =>
    intro tries pc s h
    simp only [List.map_nil]
    unfold pairLoop
    split
    · exact Nat.le_add_right _ _
    · exact Nat.le_add_right _ _
  | cons r rest ih =>
    intro tries pc s h
    have hrest : ∀ c, Except.ok c ∈ rest → c ≠ "" :=
      fun c hc => h c (List.mem_cons_of_mem _ hc)
    simp only [List.map_cons]
    unfold pairLoop
    by_cases hcond : 0 < tries ∧ falsyStr pc = true
    · rw [if_pos hcond]
      have hs0 := countAct_iter s
      cases r with
      | ok code =>
        dsimp only
        have hcode : code ≠ "" := h code (by simp)
        rw [if_neg hcode]
        rcases hslot :
            (addAction (addAction s (Action.delayMs 1000)) Action.codeAttempt).slot
            with _ | r0
        · dsimp only
          rw [countAct_send _ (fun r1 => by simp) _ _, hs0.1, if_pos hcond.2]
          omega
        · dsimp only
          have hb : falsyStr (some code) = false := by simp [falsyStr, hcode]
          have hrec := ih tries (some code)
            (addAction (addAction s (Action.delayMs 1000)) Action.codeAttempt) hrest
          rw [hb] at hrec
          simp only [Bool.false_eq_true, if_false] at hrec
          rw [if_pos hcond.2]
          omega
      | error e =>
        dsimp only
        by_cases ht : tries - 1 = 0
        · rw [if_pos ht]
          rcases hslot :
              (addAction (addAction s (Action.delayMs 1000)) Action.codeAttempt).slot
              with _ | r0
          · dsimp only
            rw [countAct_send _ (fun r1 => by simp) _ _, hs0.1, if_pos hcond.2]
            omega
          · dsimp only
            have hrec := ih (tries - 1) pc
              (addAction (addAction s (Action.delayMs 1000)) Action.codeAttempt) hrest
            rw [if_pos hcond.2] at hrec ⊢
            omega
        · rw [if_neg ht]
          have hrec := ih (tries - 1) pc
            (addAction (addAction s (Action.delayMs 1000)) Action.codeAttempt) hrest
          rw [if_pos hcond.2] at hrec ⊢
          omega
    · rw [if_neg hcond]
      exact Nat.le_add_right _ _

/-- Every `requestPairingCode` call of the loop is immediately preceded
by its own `delay(1000)`: the two side-effect counters move in lockstep. -/
lemma pairLoop_delay_balance (san : String) :
    ∀ (oracle : List (Except Unit String)) (tries : Nat) (pc : Option String)
      (s : SessState),
      countAct (Action.delayMs 1000)
          (pairLoop san (oracle.map LoopStep.attempt) tries pc s).1.actions
        + countAct Action.codeAttempt s.actions
      = countAct Action.codeAttempt
          (pairLoop san (oracle.map LoopStep.attempt) tries pc s).1.actions
        + countAct (Action.delayMs 1000) s.actions := by
  intro oracle
  induction oracle with
  | nil =>
    intro tries pc s
    simp only [List.map_nil]
    unfold pairLoop
    split
    · dsimp only
      omega
    · dsimp only
      omega
  | cons r rest ih =>
    intro tries pc s
    simp only [List.map_cons]
    unfold pairLoop
    by_cases hcond : 0 < tries ∧ falsyStr pc = true
    · rw [if_pos hcond]
      have hs0 := countAct_iter s
      cases r with
      | ok code =>
        dsimp only
        by_cases hcode : code = ""
        · rw [if_pos hcode]
          have hrec := ih tries (some code)
            (addAction (addAction s (Action.delayMs 1000)) Action.codeAttempt)
          omega
        · rw [if_neg hcode]
          rcases hslot :
              (addAction (addAction s (Action.delayMs 1000)) Action.codeAttempt).slot
              with _ | r0
          · dsimp only
            rw [countAct_send _ (fun r1 => by simp) _ _,
                countAct_send _ (fun r1 => by simp) _ _]
            omega
          · dsimp only
            have hrec := ih tries (some code)
              (addAction (addAction s (Action.delayMs 1000)) Action.codeAttempt)
            omega
      | error e =>
        dsimp only
        by_cases ht : tries - 1 = 0
        · rw [if_pos ht]
          rcases hslot :
              (addAction (addAction s (Action.delayMs 1000)) Action.codeAttempt).slot
              with _ | r0
          · dsimp only
            rw [countAct_send _ (fun r1 => by simp) _ _,
                countAct_send _ (fun r1 => by simp) _ _]
            omega
          · dsimp only
            have hrec := ih (tries - 1) pc
              (addAction (addAction s (Action.delayMs 1000)) Action.codeAttempt)
            omega
        · rw [if_neg ht]
          have hrec := ih (tries - 1) pc
            (addAction (addAction s (Action.delayMs 1000)) Action.codeAttempt)
          omega
    · rw [if_neg hcond]
      dsimp only
      omega

/-- A first attempt that yields a non-empty code wins the slot with
`pairing_code_sent` (status 200) and returns from the handler. -/
lemma pairLoop_ok_first (san : String) (db0 : List Record) (c : String)
    (rest : List (Except Unit String)) (hc : c ≠ "") :
    pairLoop san ((Except.ok c :: rest).map LoopStep.attempt) 3 none (freshState db0)
      = (send (addAction (addAction (freshState db0) (Action.delayMs 1000))
            Action.codeAttempt) ⟨200, Outcome.pairingCodeSent c⟩, true, true) := by
  simp only [List.map_cons]
  unfold pairLoop
  rw [if_pos (⟨by decide, rfl⟩ : 0 < 3 ∧ falsyStr (none : Option String) = true)]
  dsimp only
  rw [if_neg hc]
  rfl

/-- One failing attempt followed by a non-empty code: the second attempt
wins the slot with `pairing_code_sent`. -/
lemma pairLoop_ok_second (san : String) (db0 : List Record) (c : String)
    (rest : List (Except Unit String)) (hc : c ≠ "") :
    (pairLoop san ((Except.error () :: Except.ok c :: rest).map LoopStep.attempt)
        3 none (freshState db0)).1.slot
      = some ⟨200, Outcome.pairingCodeSent c⟩ := by
  simp only [List.map_cons]
  unfold pairLoop
  rw [if_pos (⟨by decide, rfl⟩ : 0 < 3 ∧ falsyStr (none : Option String) = true)]
  dsimp only
  rw [if_neg (by decide : ¬(3 - 1 = 0))]
  unfold pairLoop
  rw [if_pos (⟨by decide, rfl⟩ : 0 < 2 ∧ falsyStr (none : Option String) = true)]
  dsimp only
  rw [if_neg hc]
  rfl

/-- Two failing attempts followed by a non-empty code: the third attempt
wins the slot with `pairing_code_sent`. -/
lemma pairLoop_ok_third (san : String) (db0 : List Record) (c : String)
    (rest : List (Except Unit String)) (hc : c ≠ "") :
    (pairLoop san
        ((Except.error () :: Except.error () :: Except.ok c :: rest).map LoopStep.attempt)
        3 none (freshState db0)).1.slot
      = some ⟨200, Outcome.pairingCodeSent c⟩ := by
  simp only [List.map_cons]
  unfold pairLoop
  rw [if_pos (⟨by decide, rfl⟩ : 0 < 3 ∧ falsyStr (none : Option String) = true)]
  dsimp only
  rw [if_neg (by decide : ¬(3 - 1 = 0))]
  unfold pairLoop
  rw [if_pos (⟨by decide, rfl⟩ : 0 < 2 ∧ falsyStr (none : Option String) = true)]
  dsimp only
  rw [if_neg (by decide : ¬(2 - 1 = 0))]
  unfold pairLoop
  rw [if_pos (⟨by decide, rfl⟩ : 0 < 1 ∧ falsyStr (none : Option String) = true)]
  dsimp only
  rw [if_neg hc]
  rfl

/-- Three failing attempts exhaust the budget: the loop wins the slot
with the 500 `failed_to_generate_pairing_code` reply and returns. -/
lemma pairLoop_three_errors (san : String) (db0 : List Record)
    (rest : List (Except Unit String)) :
    (pairLoop san
        ((Except.error () :: Except.error () :: Except.error () :: rest).map
          LoopStep.attempt) 3 none (freshState db0)).1.slot
      = some ⟨500, Outcome.failedToGeneratePairingCode⟩ := by
  simp only [List.map_cons]
  unfold pairLoop
  rw [if_pos (⟨by decide, rfl⟩ : 0 < 3 ∧ falsyStr (none : Option String) = true)]
  dsimp only
  rw [if_neg (by decide : ¬(3 - 1 = 0))]
  unfold pairLoop
  rw [if_pos (⟨by decide, rfl⟩ : 0 < 2 ∧ falsyStr (none : Option String) = true)]
  dsimp only
  rw [if_neg (by decide : ¬(2 - 1 = 0))]
  unfold pairLoop
  rw [if_pos (⟨by decide, rfl⟩ : 0 < 1 ∧ falsyStr (none : Option String) = true)]
  dsimp only
  rw [if_pos (by decide : 1 - 1 = 0)]
  rfl

/-! ### Claim theorems -/

/-- Claim C1 (amended): at most one HTTP response is ever committed per
request — over every input and every schedule of loop attempts, connection
events and timer firings, at most one `res...json` call reaches Express;
and a guarded write onto an already-filled slot leaves the state
unchanged, so every attempt after the first is silently dropped. -/
theorem response_committed_at_most_once (number : String) (registered : Bool)
    (steps : List LoopStep) (db0 : List Record) (events : List Event) :
    ((runSession number registered steps db0 events).2.sends).length ≤ 1 ∧
    (∀ (s : SessState) (r : HttpResponse), s.slot = none ∨ send s r = s) := by
  refine ⟨(runSession_sends_facts number registered steps db0 events).1, ?_⟩
  intro s r
  cases hs : s.slot with
  | none => exact Or.inl rfl
  | some r0 => exact Or.inr (send_of_some r r0 hs)

/-- Claim C1 counterexample: a well-formed request for which no response
is ever committed, refuting delivery of exactly one response. The subject
is unregistered and every `requestPairingCode` call returns an empty
string, so the loop neither succeeds nor fails nor terminates (an empty
code does not decrement `tries`), no connection event fires, and the
safety timer was never armed: zero responses are sent. -/
theorem no_response_ever_committed :
    "254700111222" ≠ "" ∧
    ¬((sanitize "254700111222").length < 8) ∧
    (runSession "254700111222" false
        (List.replicate 4 (LoopStep.attempt (Except.ok ""))) [] []).2.sends = [] ∧
    ((runSession "254700111222" false
        (List.replicate 4 (LoopStep.attempt (Except.ok ""))) [] []).2.sends).length
      ≠ 1 := by
  decide

/-- Claim C3 (amended): under a transport whose attempts either throw or
return a non-empty code, the loop makes at most 3 attempts, every attempt
is preceded by its own `delay(1000)`, the first non-empty code wins the
slot with 200 `pairing_code_sent` (shown for a success at attempt 1, 2
and 3), and three consecutive failures win the slot with 500
`failed_to_generate_pairing_code`. An attempt returning an empty code,
however, does not consume the retry budget (see the counterexample). -/
theorem pairing_code_retry_policy (san : String) (db0 : List Record) (c : String)
    (oracle rest : List (Except Unit String)) (hc : c ≠ "")
    (hwb : ∀ x, Except.ok x ∈ oracle → x ≠ "") :
    countAct Action.codeAttempt
        (pairLoop san (oracle.map LoopStep.attempt) 3 none (freshState db0)).1.actions
      ≤ 3 ∧
    countAct (Action.delayMs 1000)
        (pairLoop san (oracle.map LoopStep.attempt) 3 none (freshState db0)).1.actions
      = countAct Action.codeAttempt
        (pairLoop san (oracle.map LoopStep.attempt) 3 none (freshState db0)).1.actions ∧
    (pairLoop san ((Except.ok c :: rest).map LoopStep.attempt) 3 none
        (freshState db0)).1.slot = some ⟨200, Outcome.pairingCodeSent c⟩ ∧
    (pairLoop san ((Except.error () :: Except.ok c :: rest).map LoopStep.attempt)
        3 none (freshState db0)).1.slot = some ⟨200, Outcome.pairingCodeSent c⟩ ∧
    (pairLoop san
        ((Except.error () :: Except.error () :: Except.ok c :: rest).map
          LoopStep.attempt) 3 none (freshState db0)).1.slot
      = some ⟨200, Outcome.pairingCodeSent c⟩ ∧
    (pairLoop san
        ((Except.error () :: Except.error () :: Except.error () :: rest).map
          LoopStep.attempt) 3 none (freshState db0)).1.slot
      = some ⟨500, Outcome.failedToGeneratePairingCode⟩ := by
  refine ⟨?_, ?_, ?_, ?_, ?_, ?_⟩
  · have h := pairLoop_attempts_le san oracle 3 none (freshState db0) hwb
    simpa [freshState, countAct, falsyStr] using h
  · have h := pairLoop_delay_balance san oracle 3 none (freshState db0)
    simpa [freshState, countAct] using h
  · rw [pairLoop_ok_first san db0 c rest hc]
    rfl
  · exact pairLoop_ok_second san db0 c rest hc
  · exact pairLoop_ok_third san db0 c rest hc
  · exact pairLoop_three_errors san db0 rest

/-- Claim C3 witness: a failing first attempt followed by code
`AB12-CD34` commits the 200 `pairing_code_sent` reply with that code. -/
theorem pairing_code_retry_policy_w :
    (pairLoop "254700111222"
        ([Except.error (), Except.ok "AB12-CD34"].map LoopStep.attempt)
        3 none (freshState [])).1.slot
      = some ⟨200, Outcome.pairingCodeSent "AB12-CD34"⟩ :=
  (pairing_code_retry_policy "254700111222" [] "AB12-CD34" [] []
      (by decide) (fun x hx => absurd hx (List.not_mem_nil (Except.ok x)))).2.2.2.1

/-- Claim C3 counterexample: with a transport answering every
`requestPairingCode` call with an empty string, a fourth attempt happens
(an empty result neither wins the slot nor decrements `tries`), so
pairing-code acquisition is not bounded by 3 attempts as claimed. -/
theorem four_pairing_attempts_made :
    countAct Action.codeAttempt
        (startPairing "254700111222" false
          (List.replicate 4 (LoopStep.attempt (Except.ok ""))) []).state.actions = 4 ∧
    ¬(countAct Action.codeAttempt
        (startPairing "254700111222" false
          (List.replicate 4 (LoopStep.attempt (Except.ok ""))) []).state.actions
        ≤ 3) := by
  decide

/-- Claim C4 (code-bug evidence): the `waiting` safety reply is
unreachable. Whenever the 30-second `setTimeout` is armed, a response has
already been committed — the `already_registered` branch responds before
reaching the `setTimeout`, and the loop can only exit its `while`
condition after a guarded write — so the timer's `if (!responded)` guard
is always false. On the concrete empty-code run the handler neither
responds nor even arms the timer: the caller hangs instead of receiving
`waiting`. -/
theorem waiting_reply_unreachable (number : String) (registered : Bool)
    (steps : List LoopStep) (db0 : List Record) :
    ((startPairing number registered steps db0).timerArmed = true →
      (startPairing number registered steps db0).state.slot ≠ none) ∧
    ((startPairing "254700111222" false
        (List.replicate 4 (LoopStep.attempt (Except.ok ""))) []).timerArmed = false ∧
     (startPairing "254700111222" false
        (List.replicate 4 (LoopStep.attempt (Except.ok ""))) []).flowDone = false ∧
     (startPairing "254700111222" false
        (List.replicate 4 (LoopStep.attempt (Except.ok ""))) []).state.sends = []) := by
  constructor
  · intro harm
    unfold startPairing at harm ⊢
    by_cases hn : number = ""
    · rw [if_pos hn] at harm
      simp at harm
    · rw [if_neg hn] at harm ⊢
      dsimp only at harm ⊢
      by_cases hl : (sanitize number).length < 8
      · rw [if_pos hl] at harm
        simp at harm
      · rw [if_neg hl] at harm ⊢
        cases registered with
        | true =>
          simp only [if_true]
          intro hcon
          rw [send_of_none _ rfl] at hcon
          simp at hcon
        | false =>
          simp only [Bool.false_eq_true, if_false] at harm ⊢
          have h1 := (Bool.and_eq_true _ _).mp harm
          have hfin := h1.1
          have hret := h1.2
          simp only [Bool.not_eq_true'] at hret
          exact pairLoop_exit_filled (sanitize number) steps 3 none _ _ _ _ rfl
            (Or.inl ⟨by decide, rfl⟩) hfin hret
  · decide

/-- Claim C4 witness: the dead-guard fact applied to a registered
subject, where the timer is armed and the slot is already filled. -/
theorem waiting_reply_unreachable_w :
    (startPairing "12345678" true [] []).state.slot ≠ none :=
  (waiting_reply_unreachable "12345678" true [] []).1 (by decide)

/-- Claim C5 (code-bug evidence): on the canonical archive-link shape
`https://mega.nz/file/CODE#KEY`, the `part_000` variant extracts the
structural file code `ABC123` (and the derived reference is
`Sila~ABC123`), while the mis-escaped regex of `src/server.js` matches
nothing and falls back to the 12-character base64 of the whole link, so
its reference is not the structural component. -/
theorem mega_regex_mismatch :
    extractMegaFileCode "https://mega.nz/file/ABC123#KEY" = some "ABC123" ∧
    sidOfCode (extractMegaFileCode "https://mega.nz/file/ABC123#KEY")
      = "Sila~ABC123" ∧
    serverJsFind "https://mega.nz/file/ABC123#KEY".data = none ∧
    serverJsCode "https://mega.nz/file/ABC123#KEY"
      = (base64Encode "https://mega.nz/file/ABC123#KEY").take 12 ∧
    serverJsCode "https://mega.nz/file/ABC123#KEY" ≠ "ABC123" ∧
    ("Sila~" ++ serverJsCode "https://mega.nz/file/ABC123#KEY") ≠ "Sila~ABC123" := by
  decide

/-- Claim C9 (amended): every response this service ever sends carries
the status of its call site: 200 for `pairing_code_sent`,
`already_registered` and `paired` (Express's `res.json` default), 202 for
`waiting`, 400 for the two input errors, and 500 for every other error. -/
theorem http_status_contract (number : String) (registered : Bool)
    (steps : List LoopStep) (db0 : List Record) (events : List Event)
    (r : HttpResponse)
    (hr : r ∈ (runSession number registered steps db0 events).2.sends) :
    r.status = amendedStatusOf r.body :=
  (runSession_sends_facts number registered steps db0 events).2 r hr

/-- Claim C9 witness: the status contract applied to the
`already_registered` response of a concrete registered-subject run. -/
theorem http_status_contract_w :
    (⟨200, Outcome.alreadyRegistered⟩ : HttpResponse).status
      = amendedStatusOf (⟨200, Outcome.alreadyRegistered⟩ : HttpResponse).body :=
  http_status_contract "12345678" true [] [] []
    ⟨200, Outcome.alreadyRegistered⟩ (by decide)

/-- Claim C9 counterexample: `pairing_code_sent` and `already_registered`
are sent by plain `res.json(...)` and therefore go out with status 200,
not the claimed 202. -/
theorem pairing_code_sent_status_200 :
    (startPairing "254700111222" false
        [LoopStep.attempt (Except.ok "AB12-CD34")] []).state.sends
      = [⟨200, Outcome.pairingCodeSent "AB12-CD34"⟩] ∧
    (startPairing "12345678" true [] []).state.sends
      = [⟨200, Outcome.alreadyRegistered⟩] ∧
    (200 : Nat) ≠ 202 := by
  decide

/-- Claim C2 (confirmed): on `open` with the credential present, a
successful upload and the slot still open, the open branch performs, in
this order: credential read (`credCheck`), archive upload, registry
append, `paired` commit (status 200), then the best-effort notification;
the committed reference `Sila~...` is non-empty, the archive link is the
uploader's (assumed dereferenceable, hence non-empty) link, and the
registry gains exactly one record whose `sid`, `number` and `megaLink`
match the response and the request. -/
theorem open_commit_order (s : SessState) (san : String) (now : Nat) (link : String)
    (hslot : s.slot = none) (hlink : link ≠ "") :
    openHandler true (Except.ok link) san now s =
      { slot := some ⟨200, Outcome.paired ("Sila~" ++ serverJsCode link) link⟩,
        db := s.db ++ [⟨"Sila~" ++ serverJsCode link, san, link, now⟩],
        sends := s.sends ++ [⟨200, Outcome.paired ("Sila~" ++ serverJsCode link) link⟩],
        actions := s.actions ++
          [Action.credCheck, Action.upload,
           Action.dbAppend ⟨"Sila~" ++ serverJsCode link, san, link, now⟩,
           Action.httpSend ⟨200, Outcome.paired ("Sila~" ++ serverJsCode link) link⟩,
           Action.notify] } ∧
    ("Sila~" ++ serverJsCode link) ≠ "" ∧ link ≠ "" := by
  refine ⟨?_, ?_, hlink⟩
  · obtain ⟨slot, db, sends, actions⟩ := s
    have h0 : slot = none := hslot
    subst h0
    simp [openHandler, addAction, send, List.append_assoc]
  · intro h
    have h2 := congrArg String.length h
    rw [String.length_append] at h2
    simp at h2
    exact absurd h2.1 (by decide)

/-- Claim C2 witness: the open branch applied to a fresh request state
and a concrete upload link. -/
theorem open_commit_order_w :
    ("Sila~" ++ serverJsCode "https://mega.nz/file/ABC123#KEY") ≠ "" :=
  (open_commit_order (freshState []) "254700111222" 5
      "https://mega.nz/file/ABC123#KEY" rfl (by decide)).2.1

/-- Claim C6 (confirmed): on `open` with the credential file absent, the
handler commits the 500 `creds_not_found` reply (when the slot is open)
and stops: no upload is attempted and the registry is unchanged. -/
theorem missing_credential_no_side_effects (s : SessState)
    (ur : Except String String) (san : String) (now : Nat)
    (hslot : s.slot = none) :
    openHandler false ur san now s =
      { slot := some ⟨500, Outcome.credsNotFound⟩, db := s.db,
        sends := s.sends ++ [⟨500, Outcome.credsNotFound⟩],
        actions := s.actions ++
          [Action.credCheck, Action.httpSend ⟨500, Outcome.credsNotFound⟩] } ∧
    (openHandler false ur san now s).db = s.db ∧
    countAct Action.upload (openHandler false ur san now s).actions
      = countAct Action.upload s.actions := by
  have h1 : openHandler false ur san now s =
      { slot := some ⟨500, Outcome.credsNotFound⟩, db := s.db,
        sends := s.sends ++ [⟨500, Outcome.credsNotFound⟩],
        actions := s.actions ++
          [Action.credCheck, Action.httpSend ⟨500, Outcome.credsNotFound⟩] } := by
    obtain ⟨slot, db, sends, actions⟩ := s
    have h0 : slot = none := hslot
    subst h0
    simp [openHandler, addAction, send, List.append_assoc]
  refine ⟨h1, by rw [h1], ?_⟩
  rw [h1]
  simp [countAct_append, countAct]

/-- Claim C6 witness: the missing-credential branch on a fresh state. -/
theorem missing_credential_no_side_effects_w :
    (openHandler false (Except.ok "x") "255700111222" 0 (freshState [])).db = [] :=
  (missing_credential_no_side_effects (freshState [])
      (Except.ok "x") "255700111222" 0 rfl).2.1

/-- Claim C7 (confirmed): a falsy `number` or one with fewer than 8
digits after sanitization is rejected synchronously with a 400 input
error: the response is sent before any transport or storage interaction,
the registry is untouched, no session directory or socket action happens,
and no later event is ever processed for the request. -/
theorem invalid_input_rejected (number : String) (registered : Bool)
    (steps : List LoopStep) (db0 : List Record) (events : List Event)
    (h : number = "" ∨ (sanitize number).length < 8) :
    ∃ r : HttpResponse, r.status = 400 ∧
      runSession number registered steps db0 events =
        (⟨⟨none, db0, [r], [Action.httpSend r]⟩, false, false, none, true⟩,
         ⟨none, db0, [r], [Action.httpSend r]⟩) := by
  by_cases hn : number = ""
  · refine ⟨⟨400, Outcome.numberRequired⟩, rfl, ?_⟩
    unfold runSession startPairing
    rw [if_pos hn]
    rfl
  · have hl : (sanitize number).length < 8 := h.resolve_left hn
    refine ⟨⟨400, Outcome.invalidNumber⟩, rfl, ?_⟩
    unfold runSession startPairing
    rw [if_neg hn]
    dsimp only
    rw [if_pos hl]
    rfl

/-- Claim C7 witness: the rejection applied to an input with no digits. -/
theorem invalid_input_rejected_w :
    ∃ r : HttpResponse, r.status = 400 ∧
      runSession "abc" false [] [] [] =
        (⟨⟨none, [], [r], [Action.httpSend r]⟩, false, false, none, true⟩,
         ⟨none, [], [r], [Action.httpSend r]⟩) :=
  invalid_input_rejected "abc" false [] [] [] (Or.inr (by decide))

/-- Claim C8 (confirmed): for a registered subject the guarded
`already_registered` reply is committed immediately (and is the only
response sent), the safety timer is armed, and when `open` later fires
with the credential present and a successful upload, the handler still
uploads and appends exactly one matching record to the registry while the
`paired` outcome is silently dropped: the slot and the sent-response list
are unchanged. -/
theorem already_registered_background (number : String) (steps : List LoopStep)
    (db0 : List Record) (link : String) (now : Nat)
    (hn : number ≠ "") (hl : ¬((sanitize number).length < 8)) :
    (startPairing number true steps db0).state.slot
        = some ⟨200, Outcome.alreadyRegistered⟩ ∧
    (startPairing number true steps db0).state.sends
        = [⟨200, Outcome.alreadyRegistered⟩] ∧
    (startPairing number true steps db0).timerArmed = true ∧
    openHandler true (Except.ok link) (sanitize number) now
        (startPairing number true steps db0).state =
      { slot := some ⟨200, Outcome.alreadyRegistered⟩,
        db := (startPairing number true steps db0).state.db ++
          [⟨"Sila~" ++ serverJsCode link, sanitize number, link, now⟩],
        sends := (startPairing number true steps db0).state.sends,
        actions := (startPairing number true steps db0).state.actions ++
          [Action.credCheck, Action.upload,
           Action.dbAppend ⟨"Sila~" ++ serverJsCode link, sanitize number, link, now⟩,
           Action.notify] } := by
  have hstart : startPairing number true steps db0 =
      ⟨⟨some ⟨200, Outcome.alreadyRegistered⟩, db0,
        [⟨200, Outcome.alreadyRegistered⟩],
        [Action.mkSessionDir (sessionFolder (sanitize number)), Action.openSocket,
         Action.httpSend ⟨200, Outcome.alreadyRegistered⟩]⟩,
       true, true, some (sessionFolder (sanitize number)), true⟩ := by
    unfold startPairing
    rw [if_neg hn]
    dsimp only
    rw [if_neg hl]
    rfl
  rw [hstart]
  refine ⟨rfl, rfl, rfl, ?_⟩
  simp [openHandler, addAction, send, List.append_assoc]

/-- Claim C8 witness: the background completion applied to a concrete
registered subject. -/
theorem already_registered_background_w :
    (startPairing "12345678" true [] []).state.sends
      = [⟨200, Outcome.alreadyRegistered⟩] :=
  (already_registered_background "12345678" [] [] "L" 0
      (by decide) (by decide)).2.1

/-- The session directory chosen by the synchronous flow, as a function
of the validation outcome. -/
lemma startPairing_sessionDir (n : String) (registered : Bool)
    (steps : List LoopStep) (db0 : List Record) :
    (startPairing n registered steps db0).sessionDir =
      if n = "" then none
      else if (sanitize n).length < 8 then none
      else some (sessionFolder (sanitize n)) := by
  unfold startPairing
  by_cases hn : n = ""
  · rw [if_pos hn, if_pos hn]
  · rw [if_neg hn, if_neg hn]
    dsimp only
    by_cases hl : (sanitize n).length < 8
    · rw [if_pos hl, if_pos hl]
    · rw [if_neg hl, if_neg hl]
      cases registered with
      | true => rfl
      | false => rfl

/-- Claim C10 (confirmed): the subject identifier actually used is the
digit subsequence of the input, the session folder is `sila_` followed by
digits only (so no character outside `sila_` and digits — in particular
no path separator — can reach the filesystem path), and two inputs with
the same digits yield the same session directory. -/
theorem sanitized_path_digits_only (number n1 n2 : String) :
    sanitize number = String.mk (number.data.filter Char.isDigit) ∧
    ((sanitize number).data.all Char.isDigit) = true ∧
    ((sessionFolder (sanitize number)).data.all
        (fun c => ("sila_".data.contains c) || c.isDigit)) = true ∧
    (n1.data.filter Char.isDigit = n2.data.filter Char.isDigit →
      ∀ (registered : Bool) (steps : List LoopStep) (db0 : List Record),
        (startPairing n1 registered steps db0).sessionDir =
        (startPairing n2 registered steps db0).sessionDir) := by
  refine ⟨rfl, ?_, ?_, ?_⟩
  · rw [List.all_eq_true]
    intro c hc
    exact (List.mem_filter.mp hc).2
  · have hdata : (sessionFolder (sanitize number)).data
        = "sila_".data ++ (number.data.filter Char.isDigit) := rfl
    rw [hdata, List.all_append]
    refine (Bool.and_eq_true _ _).mpr ⟨by decide, ?_⟩
    rw [List.all_eq_true]
    intro c hc
    have hd := (List.mem_filter.mp hc).2
    simp [hd]
  · intro hfe registered steps db0
    have hs : sanitize n1 = sanitize n2 := by
      unfold sanitize
      rw [hfe]
    rw [startPairing_sessionDir, startPairing_sessionDir]
    by_cases h1 : n1 = ""
    · rw [if_pos h1]
      by_cases h2 : n2 = ""
      · rw [if_pos h2]
      · have hz : sanitize n2 = "" := by
          rw [← hs, h1]
          rfl
        have hl2 : (sanitize n2).length < 8 := by
          rw [hz]
          decide
        rw [if_neg h2, if_pos hl2]
    · rw [if_neg h1]
      by_cases h2 : n2 = ""
      · have hz : sanitize n1 = "" := by
          rw [hs, h2]
          rfl
        have hl1 : (sanitize n1).length < 8 := by
          rw [hz]
          decide
        rw [if_pos h2, if_pos hl1]
      · rw [if_neg h2]
        by_cases hl : (sanitize n1).length < 8
        · have hl2 : (sanitize n2).length < 8 := by rw [← hs]; exact hl
          rw [if_pos hl, if_pos hl2]
        · have hl2 : ¬((sanitize n2).length < 8) := by rw [← hs]; exact hl
          rw [if_neg hl, if_neg hl2, hs]

/-- Claim C10 witness: a formatted and an unformatted spelling of the
same number map to the same session directory. -/
theorem sanitized_path_digits_only_w :
    (startPairing "+255 700-111-222" false [] []).sessionDir =
    (startPairing "255700111222" false [] []).sessionDir :=
  (sanitized_path_digits_only "x" "+255 700-111-222" "255700111222").2.2.2
    (by decide) false [] []

end SilaPair
